import Mathlib

/-!
Verification of the reflecs/flecs ECS sources: the C++ API wrapper
(`rows`, `column`, `type`, `component`, `system`), the observer module
(`observer.c`), the `each`-invoker column helpers (`invoker.hpp`) and the
snapshot stream reader.  Each C/C++ function referenced by a claim is
translated into an executable Lean definition; machine integers are
modelled as `Nat`/`Int` with explicit wrap-around where the source casts,
pointers as total functions or `Option`, and `ecs_assert` failures as
`Except` errors.
-/

namespace Reflecs

/-- Abstract error codes raised by `ecs_assert` in the sources
(ECS_COLUMN_INDEX_OUT_OF_RANGE, ECS_COLUMN_TYPE_MISMATCH, ...). -/
inductive EcsError where
  | EntityNotAlive
  | ComponentNotRegistered
  | ColumnIndexOutOfRange
  | ColumnTypeMismatch
  | ColumnAccessViolation
  | ColumnIsShared
  | ColumnIsNotShared
  | InvalidFilter
  | InvalidOperation
  | InternalError
deriving DecidableEq, Repr

/-! ### The `flecs::rows` / `flecs::column` wrappers (part_000, lines 43-214)

`ecs_rows_t` is opaque in the wrapper: the wrapper only reads it through
the C API calls `ecs_is_readonly`, `ecs_is_shared`, `ecs_column_entity`
and `_ecs_column`/`_ecs_field`.  Those calls are modelled as fields of
`EcsRows`; component values have type `V`, and `_ecs_column`'s pointer is
the function `column_data c : Nat → V` (index `i` is `ptr[i]`). -/
structure EcsRows (V : Type) where
  count : Nat
  is_readonly : Nat → Bool
  is_shared : Nat → Bool
  column_entity : Nat → Nat
  column_data : Nat → Nat → V

/-- `flecs::column<T>`: an array pointer plus the element count that
guards against out-of-bound reads. -/
structure EcsColumn (V : Type) where
  m_array : Nat → V
  m_count : Nat

/-- `flecs::column<T>::operator[]`:
`ecs_assert(index < m_count, ECS_COLUMN_INDEX_OUT_OF_RANGE, NULL);
return m_array[index];` -/
def EcsColumn.getIdx {V : Type} (c : EcsColumn V) (index : Nat) : Except EcsError V :=
  if index < c.m_count then .ok (c.m_array index) else .error .ColumnIndexOutOfRange

/-- The static registration data of `component_base<T>` that the typed
accessors consult (`s_entity`), together with whether the C++ spelling `T`
is const-qualified, which selects between the const and non-const
overloads of `rows::column` / `rows::field`. -/
structure CompReq where
  s_entity : Nat
  is_const : Bool

/-- `rows::get_column<T>`:
`ecs_assert(ecs_column_entity(m_rows, column_id) == component_base<T>::s_entity,
ECS_COLUMN_TYPE_MISMATCH, NULL);` then `count = 1` if the column is
shared, else `count = m_rows->count`, and the column object is built from
the `_ecs_column` pointer. -/
def EcsRows.get_column {V : Type} (r : EcsRows V) (s_entity : Nat) (column_id : Nat) :
    Except EcsError (EcsColumn V) :=
  if r.column_entity column_id ≠ s_entity then .error .ColumnTypeMismatch
  else
    .ok ⟨r.column_data column_id, if r.is_shared column_id then 1 else r.count⟩

/-- `rows::column<T>`: the non-const overload first checks
`ecs_assert(!ecs_is_readonly(m_rows, column), ECS_COLUMN_ACCESS_VIOLATION, NULL)`;
the const overload goes straight to `get_column`. -/
def EcsRows.column {V : Type} (r : EcsRows V) (t : CompReq) (c : Nat) :
    Except EcsError (EcsColumn V) :=
  if t.is_const then r.get_column t.s_entity c
  else if r.is_readonly c then .error .ColumnAccessViolation
  else r.get_column t.s_entity c

/-- `rows::get_field<T>`: type check as in `get_column`, then the element
`_ecs_field(m_rows, sizeof(T), column, row)`. -/
def EcsRows.get_field {V : Type} (r : EcsRows V) (s_entity : Nat) (c row : Nat) :
    Except EcsError V :=
  if r.column_entity c ≠ s_entity then .error .ColumnTypeMismatch
  else .ok (r.column_data c row)

/-- `rows::field<T>`: non-const overload checks the read-only flag first;
const overload does not. -/
def EcsRows.field {V : Type} (r : EcsRows V) (t : CompReq) (c row : Nat) :
    Except EcsError V :=
  if t.is_const then r.get_field t.s_entity c row
  else if r.is_readonly c then .error .ColumnAccessViolation
  else r.get_field t.s_entity c row

/-- `rows::owned<T>`:
`ecs_assert(!ecs_is_shared(m_rows, column), ECS_COLUMN_IS_SHARED, NULL);
return this->column<T>(column);` -/
def EcsRows.owned {V : Type} (r : EcsRows V) (t : CompReq) (c : Nat) :
    Except EcsError (EcsColumn V) :=
  if r.is_shared c then .error .ColumnIsShared
  else r.column t c

/-- `rows::shared<T>`: the type-mismatch assert comes first, then the
shared assert, then the single value `*(T*)_ecs_column(...)`. -/
def EcsRows.shared {V : Type} (r : EcsRows V) (s_entity : Nat) (c : Nat) :
    Except EcsError V :=
  if r.column_entity c ≠ s_entity then .error .ColumnTypeMismatch
  else if r.is_shared c = false then .error .ColumnIsNotShared
  else .ok (r.column_data c 0)

/-! Concrete iteration handles used by the witnesses. -/

/-- A concrete handle: column 0 is read-only, nothing is shared, column
`c` holds component entity `c + 10` and data `100 * c + i`. -/
def demoRows : EcsRows Nat where
  count := 3
  is_readonly := fun c => c = 0
  is_shared := fun _ => false
  column_entity := fun c => c + 10
  column_data := fun c i => 100 * c + i

/-- A concrete handle with a shared column 1. -/
def demoRowsShared : EcsRows Nat where
  count := 4
  is_readonly := fun _ => false
  is_shared := fun c => c = 1
  column_entity := fun c => c + 10
  column_data := fun c i => 7 * c + i

/-! ### Claim C1: read-only columns and const access -/

/-- C1: for every iteration handle and column index, requesting the column
(or a single field of it) through a non-const type on a column marked
read-only fails with `ColumnAccessViolation`, while requesting the same
column through a const type performs no read-only check and succeeds
(the success depends only on the type check, never on the flag). -/
theorem C1_readonly_access (V : Type) (r : EcsRows V) (s_entity c row : Nat)
    (hro : r.is_readonly c = true) (hty : r.column_entity c = s_entity) :
    r.column ⟨s_entity, false⟩ c = .error .ColumnAccessViolation ∧
    r.field ⟨s_entity, false⟩ c row = .error .ColumnAccessViolation ∧
    r.column ⟨s_entity, true⟩ c =
      .ok ⟨r.column_data c, if r.is_shared c then 1 else r.count⟩ ∧
    r.field ⟨s_entity, true⟩ c row = .ok (r.column_data c row) := by
  refine ⟨?_, ?_, ?_, ?_⟩ <;>
    simp [EcsRows.column, EcsRows.field, EcsRows.get_column, EcsRows.get_field, hro, hty]

/-- Witness for C1 at the concrete handle `demoRows`, column 0. -/
theorem C1_readonly_access_witness :
    demoRows.column ⟨10, false⟩ 0 = .error .ColumnAccessViolation ∧
    demoRows.field ⟨10, false⟩ 0 2 = .error .ColumnAccessViolation ∧
    demoRows.column ⟨10, true⟩ 0 =
      .ok ⟨demoRows.column_data 0, if demoRows.is_shared 0 then 1 else demoRows.count⟩ ∧
    demoRows.field ⟨10, true⟩ 0 2 = .ok (demoRows.column_data 0 2) :=
  C1_readonly_access Nat demoRows 10 0 2 rfl rfl

/-! ### Claim C2: element count and bounds of a typed column -/

/-- C2: a typed column obtained from an iteration handle has readable
element count 1 when the column is shared and the batch entity count when
owned; indexing at or beyond that count fails with
`ColumnIndexOutOfRange`, any smaller index returns the element there. -/
theorem C2_column_bounds (V : Type) (r : EcsRows V) (s_entity c : Nat)
    (col : EcsColumn V) (hok : r.get_column s_entity c = .ok col) :
    col.m_count = (if r.is_shared c then 1 else r.count) ∧
    (∀ index, col.m_count ≤ index →
      col.getIdx index = .error .ColumnIndexOutOfRange) ∧
    (∀ index, index < col.m_count →
      col.getIdx index = .ok (r.column_data c index)) := by
  unfold EcsRows.get_column at hok
  split at hok
  · exact absurd hok (by simp)
  · simp only [Except.ok.injEq] at hok
    subst hok
    refine ⟨rfl, ?_, ?_⟩
    · intro index hle
      unfold EcsColumn.getIdx
      simp [Nat.not_lt_of_le hle]
    · intro index hlt
      unfold EcsColumn.getIdx
      simp only at hlt ⊢
      simp [hlt]

/-- Witness for C2 at `demoRowsShared`, shared column 1. -/
theorem C2_column_bounds_witness :
    ∃ col : EcsColumn Nat, demoRowsShared.get_column 11 1 = .ok col ∧
      (col.m_count = (if demoRowsShared.is_shared 1 then 1 else demoRowsShared.count) ∧
      (∀ index, col.m_count ≤ index →
        col.getIdx index = .error .ColumnIndexOutOfRange) ∧
      (∀ index, index < col.m_count →
        col.getIdx index = .ok (demoRowsShared.column_data 1 index))) :=
  ⟨⟨demoRowsShared.column_data 1, 1⟩, rfl,
    C2_column_bounds Nat demoRowsShared 11 1 ⟨demoRowsShared.column_data 1, 1⟩ rfl⟩

/-! ### Claim C5: owned/shared retrieval errors -/

/-- A concrete handle falsifying C5 as stated: column 0 is not shared and
holds component entity 3. -/
def cexRows : EcsRows Nat where
  count := 1
  is_readonly := fun _ => false
  is_shared := fun _ => false
  column_entity := fun _ => 3
  column_data := fun _ _ => 0

/-- C5 counterexample: the claim says `shared()` fails with
`ColumnIsNotShared` exactly when the column is not shared; but on a
non-shared column requested with a mismatched type (registered entity 4,
column entity 3) it fails with `ColumnTypeMismatch` instead, because the
type check precedes the sharing check. -/
theorem C5_errors_counterexample :
    cexRows.is_shared 0 = false ∧
    cexRows.shared 4 0 ≠ .error .ColumnIsNotShared ∧
    cexRows.shared 4 0 = .error .ColumnTypeMismatch := by
  refine ⟨rfl, ?_, rfl⟩
  intro h
  simp [EcsRows.shared, cexRows] at h

/-- C5 amended: `owned()` fails with `ColumnIsShared` exactly when the
column is shared; `shared()` fails with `ColumnTypeMismatch` whenever the
requested type's registered entity differs from the column entity (this
check precedes the sharing check), and with a matching entity it fails
with `ColumnIsNotShared` exactly when the column is not shared; `owned()`
fails with `ColumnTypeMismatch` when the column is not shared, the
read-only check does not fire (const request or non-read-only column) and
the entity differs. -/
theorem C5_errors_amended (V : Type) (r : EcsRows V) (t : CompReq) (c : Nat) :
    ((r.owned t c = .error .ColumnIsShared) ↔ r.is_shared c = true) ∧
    (r.column_entity c ≠ t.s_entity →
      r.shared t.s_entity c = .error .ColumnTypeMismatch) ∧
    (r.column_entity c = t.s_entity →
      ((r.shared t.s_entity c = .error .ColumnIsNotShared) ↔ r.is_shared c = false)) ∧
    (r.is_shared c = false → (t.is_const = true ∨ r.is_readonly c = false) →
      r.column_entity c ≠ t.s_entity →
      r.owned t c = .error .ColumnTypeMismatch) := by
  refine ⟨?_, ?_, ?_, ?_⟩
  · unfold EcsRows.owned EcsRows.column EcsRows.get_column
    split_ifs <;> simp_all
  · intro h
    unfold EcsRows.shared
    simp [h]
  · intro heq
    unfold EcsRows.shared
    split_ifs <;> simp_all
  · intro hns hroc hne
    unfold EcsRows.owned EcsRows.column EcsRows.get_column
    rcases hroc with hc | hro
    · split_ifs <;> simp_all
    · split_ifs <;> simp_all

/-- Witness for C5 amended at `demoRowsShared`. -/
theorem C5_errors_amended_witness :
    (((demoRowsShared.owned ⟨11, true⟩ 1 = .error .ColumnIsShared) ↔
        demoRowsShared.is_shared 1 = true) ∧
    (demoRowsShared.column_entity 1 ≠ (11 : Nat) →
      demoRowsShared.shared 11 1 = .error .ColumnTypeMismatch) ∧
    (demoRowsShared.column_entity 1 = 11 →
      ((demoRowsShared.shared 11 1 = .error .ColumnIsNotShared) ↔
        demoRowsShared.is_shared 1 = false)) ∧
    (demoRowsShared.is_shared 1 = false →
      ((true : Bool) = true ∨ demoRowsShared.is_readonly 1 = false) →
      demoRowsShared.column_entity 1 ≠ 11 →
      demoRowsShared.owned ⟨11, true⟩ 1 = .error .ColumnTypeMismatch)) :=
  C5_errors_amended Nat demoRowsShared ⟨11, true⟩ 1

/-! ### Claim C6: INSTANCEOF / CHILDOF flag bits (part_000, lines 598-610) -/

/-- `ECS_INSTANCEOF` (reserved high bit of a 64-bit id). -/
def ECS_INSTANCEOF : Nat := 0x8000000000000000

/-- `ECS_CHILDOF` (reserved high bit of a 64-bit id). -/
def ECS_CHILDOF : Nat := 0x4000000000000000

/-- The id `type::add_instanceof` passes to `ecs_type_add`:
`entity.id() | ECS_INSTANCEOF`. -/
def add_instanceof_id (id : Nat) : Nat := id ||| ECS_INSTANCEOF

/-- The id `type::add_childof` passes to `ecs_type_add`:
`entity.id() | ECS_CHILDOF`. -/
def add_childof_id (id : Nat) : Nat := id ||| ECS_CHILDOF

/-- C6: the id appended by `add_instanceof` is the entity's id with
exactly bit 63 (`0x8000000000000000`) additionally set, and the one
appended by `add_childof` is the id with exactly bit 62
(`0x4000000000000000`) additionally set; every other bit is preserved. -/
theorem C6_relation_flag_bits (id : Nat) :
    (add_instanceof_id id).testBit 63 = true ∧
    (∀ k, k ≠ 63 → (add_instanceof_id id).testBit k = id.testBit k) ∧
    (add_childof_id id).testBit 62 = true ∧
    (∀ k, k ≠ 62 → (add_childof_id id).testBit k = id.testBit k) := by
  have hinst : ECS_INSTANCEOF = 2 ^ 63 := by norm_num [ECS_INSTANCEOF]
  have hchild : ECS_CHILDOF = 2 ^ 62 := by norm_num [ECS_CHILDOF]
  refine ⟨?_, ?_, ?_, ?_⟩
  · rw [add_instanceof_id, Nat.testBit_lor, hinst, Nat.testBit_two_pow_self,
      Bool.or_true]
  · intro k hk
    rw [add_instanceof_id, Nat.testBit_lor, hinst,
      Nat.testBit_two_pow_of_ne (Ne.symm hk), Bool.or_false]
  · rw [add_childof_id, Nat.testBit_lor, hchild, Nat.testBit_two_pow_self,
      Bool.or_true]
  · intro k hk
    rw [add_childof_id, Nat.testBit_lor, hchild,
      Nat.testBit_two_pow_of_ne (Ne.symm hk), Bool.or_false]

/-! ### Claim C3: generated system signature (part_000, lines 874-937) -/

/-- The three mutually exclusive C++ type-trait buckets of
`system::inout_modifier<T>`: `std::is_const<T>`, `std::is_reference<T>`,
or neither. -/
inductive CppKind where
  | value
  | constVal
  | ref
deriving DecidableEq, Repr

/-- A template component parameter of `flecs::system<Components...>`:
its registered name `component_base<T>::s_name` and its trait bucket. -/
structure CppComponentParam where
  s_name : String
  kind : CppKind

/-- `system::inout_modifier<T>`: `"[in] "` for a const type, `"[out] "`
for a reference type, `""` otherwise. -/
def inout_modifier (k : CppKind) : String :=
  match k with
  | .constVal => "[in] "
  | .ref => "[out] "
  | .value => ""

/-- The signature-building loop of `system::action`: for each component,
emit `","` when `i` is non-zero, then the inout modifier, then the id. -/
def signature_loop : Nat → String → List CppComponentParam → String
  | _, acc, [] => acc
  | i, acc, c :: rest =>
      signature_loop (i + 1)
        ((if i = 0 then acc else acc ++ ",") ++ inout_modifier c.kind ++ c.s_name) rest

/-- `system::action`'s signature construction: the loop over the template
components, then — when a user signature was supplied via
`system::signature` — a `","` if any component was emitted, followed by
the user string. -/
def action_signature (components : List CppComponentParam)
    (m_signature : Option String) : String :=
  let str := signature_loop 0 "" components
  match m_signature with
  | none => str
  | some sig => if components.length ≠ 0 then str ++ "," ++ sig else str ++ sig

/-- Comma-separated list, following the claim's words: the terms in
order, separated by commas. -/
def comma_separated : List String → String
  | [] => ""
  | [t] => t
  | t :: u :: rest => t ++ "," ++ comma_separated (u :: rest)

/-- Proof helper: the tail of a comma-separated list, every element
preceded by a comma. -/
def commaTail : List String → String
  | [] => ""
  | t :: ts => "," ++ t ++ commaTail ts

theorem comma_separated_cons (t : String) (ts : List String) :
    comma_separated (t :: ts) = t ++ commaTail ts := by
  induction ts generalizing t with
  | nil => simp [comma_separated, commaTail]
  | cons u us ih =>
      rw [comma_separated, commaTail, ih u]
      simp [String.append_assoc]

theorem signature_loop_ne_zero (l : List CppComponentParam) :
    ∀ (acc : String) (i : Nat), i ≠ 0 →
      signature_loop i acc l =
        acc ++ commaTail (l.map fun c => inout_modifier c.kind ++ c.s_name) := by
  induction l with
  | nil => intro acc i _; simp [signature_loop, commaTail]
  | cons c rest ih =>
      intro acc i hi
      rw [signature_loop, if_neg hi, ih _ (i + 1) (Nat.succ_ne_zero i)]
      simp [commaTail, String.append_assoc]

/-- C3: the signature `system::action` generates lists the template
components in template-parameter order separated by commas, prefixing a
const component with `"[in] "`, a non-const reference component with
`"[out] "` and a plain value component with nothing, and any user-supplied
signature string is appended after the generated terms. -/
theorem C3_generated_signature (components : List CppComponentParam)
    (m_signature : Option String) :
    inout_modifier .constVal = "[in] " ∧
    inout_modifier .ref = "[out] " ∧
    inout_modifier .value = "" ∧
    action_signature components m_signature =
      comma_separated (components.map fun c => inout_modifier c.kind ++ c.s_name) ++
        (match m_signature with
          | none => ""
          | some sig => (if components.isEmpty then "" else ",") ++ sig) := by
  refine ⟨rfl, rfl, rfl, ?_⟩
  have hloop : signature_loop 0 "" components =
      comma_separated (components.map fun c => inout_modifier c.kind ++ c.s_name) := by
    cases components with
    | nil => rfl
    | cons c rest =>
        rw [List.map_cons, comma_separated_cons, signature_loop, if_pos rfl,
          signature_loop_ne_zero rest _ 1 one_ne_zero]
        simp [String.append_assoc]
  cases m_signature with
  | none => simp [action_signature, hloop]
  | some sig =>
      cases components with
      | nil => simp [action_signature, hloop, comma_separated]
      | cons c rest =>
          simp only [action_signature, hloop]
          rw [if_pos (by simp), List.isEmpty_cons, if_neg (by simp)]
          rw [String.append_assoc]

/-! ### Claim C9: each-invoker column helpers (invoker.hpp, lines 42-78) -/

/-- `_::term_ptr` as read by the column helpers: the column pointer
(`NULL` or an array base, modelled as `Option` of an index function) and
the `is_ref` flag. -/
structure TermPtr (V : Type) where
  ptr : Option (Nat → V)
  is_ref : Bool

/-- `each_column<T>::get_row` for a pointer type `T` (an optional term):
`if (this->m_term.ptr) return &static_cast<T>(this->m_term.ptr)[this->m_row];
else return nullptr;` -/
def each_column_ptr {V : Type} (term : TermPtr V) (row : Nat) : Option V :=
  match term.ptr with
  | some a => some (a row)
  | none => none

/-- `each_column<T>::get_row` for a non-pointer type `T`:
`static_cast<T*>(this->m_term.ptr)[this->m_row]` (no null check; the
pointer is modelled as the index function `a`). -/
def each_column_val {V : Type} (a : Nat → V) (row : Nat) : V := a row

/-- The row adjustment of the `each_ref_column` constructor: when
`term.is_ref` the row is forced to 0, because a reference column holds a
single value, not an array. -/
def each_ref_row {V : Type} (term : TermPtr V) (row : Nat) : Nat :=
  if term.is_ref then 0 else row

/-- `each_ref_column<T>::get_row` for a pointer type `T`: the inherited
`each_column<T>::get_row` at the adjusted row. -/
def each_ref_column_ptr {V : Type} (term : TermPtr V) (row : Nat) : Option V :=
  each_column_ptr term (each_ref_row term row)

/-- `each_ref_column<T>::get_row` for a non-pointer type `T`. -/
def each_ref_column_val {V : Type} (term : TermPtr V) (a : Nat → V) (row : Nat) : V :=
  each_column_val a (each_ref_row term row)

/-- C9: in each-style iteration a pointer-typed (optional) term delivers
`nullptr` for every row when the term has no backing column, and a pointer
to the row's element otherwise; a term matched by reference delivers the
same single value for every row because the row index is forced to 0. -/
theorem C9_each_column_behaviour (V : Type) (term : TermPtr V) (row : Nat) :
    (term.ptr = none → each_column_ptr term row = none) ∧
    (∀ a, term.ptr = some a → each_column_ptr term row = some (a row)) ∧
    (term.is_ref = true → each_ref_column_ptr term row = each_ref_column_ptr term 0) ∧
    (term.is_ref = true → ∀ a, each_ref_column_val term a row = a 0) := by
  refine ⟨?_, ?_, ?_, ?_⟩
  · intro h; simp [each_column_ptr, h]
  · intro a h; simp [each_column_ptr, h]
  · intro h; simp [each_ref_column_ptr, each_ref_row, h]
  · intro h a; simp [each_ref_column_val, each_ref_row, each_column_val, h]

/-- A concrete optional term with no backing column. -/
def demoTermNone : TermPtr Nat := ⟨none, false⟩

/-- A concrete owned term whose column holds `i + 40` at row `i`. -/
def demoTermArr : TermPtr Nat := ⟨some fun i => i + 40, false⟩

/-- A concrete reference (shared) term. -/
def demoTermRef : TermPtr Nat := ⟨some fun i => i + 40, true⟩

/-- Witness for C9: a missing optional column, a present one, and a
reference column, all concrete. -/
theorem C9_each_column_behaviour_witness :
    each_column_ptr demoTermNone 2 = none ∧
    each_column_ptr demoTermArr 2 = some 42 ∧
    each_ref_column_ptr demoTermRef 2 = each_ref_column_ptr demoTermRef 0 ∧
    ∀ a : Nat → Nat, each_ref_column_val demoTermRef a 2 = a 0 := by
  refine ⟨?_, ?_, ?_, ?_⟩
  · exact (C9_each_column_behaviour Nat demoTermNone 2).1 rfl
  · exact (C9_each_column_behaviour Nat demoTermArr 2).2.1 _ rfl
  · exact (C9_each_column_behaviour Nat demoTermRef 2).2.2.1 rfl
  · exact fun a => (C9_each_column_behaviour Nat demoTermRef 2).2.2.2 rfl a

/-! ### Claim C10: component registration for T, const T, T& (part_000, lines 757-799) -/

/-- The static members of `component_base<T>` for one C++ spelling. -/
structure ComponentBaseData where
  s_entity : Nat
  s_type : Nat
  s_name : String
deriving DecidableEq, Repr

/-- `component_base<T>::init`: `s_entity = ecs_new_component(world, name,
sizeof(T)); s_type = ecs_type_from_entity(world, s_entity); s_name = name`.
The two world calls are external; their results `e` and `t` are inputs. -/
def component_base_init (e t : Nat) (name : String) : ComponentBaseData :=
  ⟨e, t, name⟩

/-- `component_base<T>::init_existing`: stores the given handles. -/
def component_base_init_existing (entity ty : Nat) (name : String) : ComponentBaseData :=
  ⟨entity, ty, name⟩

/-- The three registration slots written by the `component<T>`
constructor: the spellings `T`, `const T` and `T&`. -/
structure ComponentRegs where
  plainReg : ComponentBaseData
  constReg : ComponentBaseData
  refReg : ComponentBaseData

/-- The `component<T>` constructor: `component_base<T>::init(world, name)`,
then `component_base<const T>::init_existing` and
`component_base<T&>::init_existing`, both fed from `component_base<T>`'s
freshly initialized statics. -/
def component_register (e t : Nat) (name : String) : ComponentRegs :=
  let plain := component_base_init e t name
  let constR := component_base_init_existing plain.s_entity plain.s_type plain.s_name
  let refR := component_base_init_existing plain.s_entity plain.s_type plain.s_name
  ⟨plain, constR, refR⟩

/-- C10: after `component<T>` runs, the registrations for `T`, `const T`
and `T&` hold the same component entity id, the same type handle and the
same name, so a typed column request through any of the three spellings
carries the same `s_entity` and `rows::get_column` resolves it to the
same column. -/
theorem C10_const_ref_alias (V : Type) (e t : Nat) (name : String) (r : EcsRows V) (c : Nat) :
    (component_register e t name).constReg = (component_register e t name).plainReg ∧
    (component_register e t name).refReg = (component_register e t name).plainReg ∧
    r.get_column (component_register e t name).constReg.s_entity c =
      r.get_column (component_register e t name).plainReg.s_entity c ∧
    r.get_column (component_register e t name).refReg.s_entity c =
      r.get_column (component_register e t name).plainReg.s_entity c :=
  ⟨rfl, rfl, rfl, rfl⟩

/-! ### Claim C7: observer failure paths (observer.c) -/

/-- The `EcsObserver` component: it points at the `ecs_observer_t`, whose
`ctx` and `binding_ctx` are nullable user pointers. -/
structure ObserverData where
  ctx : Option Nat
  binding_ctx : Option Nat

/-- The part of the world state read by `ecs_get_observer_ctx`:
`ecs_get(world, entity, EcsObserver)` as a partial map. -/
structure ObserverWorld where
  get_observer : Nat → Option ObserverData

/-- `ecs_get_observer_ctx`: `o = ecs_get(world, observer, EcsObserver);
if (o) return o->observer->ctx; else return NULL;` -/
def ecs_get_observer_ctx (w : ObserverWorld) (observer : Nat) : Option Nat :=
  match w.get_observer observer with
  | some o => o.ctx
  | none => none

/-- `ecs_get_observer_binding_ctx`: same shape for `binding_ctx`. -/
def ecs_get_observer_binding_ctx (w : ObserverWorld) (observer : Nat) : Option Nat :=
  match w.get_observer observer with
  | some o => o.binding_ctx
  | none => none

/-- Result of `ecs_filter_init` (external collaborator): zero on success,
non-zero when the filter description fails to parse. -/
inductive FilterInitResult where
  | ok
  | err
deriving DecidableEq, Repr

/-- The observable outcome of `ecs_observer_init`: the returned entity id
and whether `ecs_observer_fini` ran on the partially built observer. -/
structure ObserverInitOutcome where
  ret : Nat
  finiCalled : Bool
deriving DecidableEq, Repr

/-- The control flow of `ecs_observer_init`: `entity` is the result of
the external `ecs_entity_init`, `added` the out-flag of `ecs_get_mut`.
When the component was added and `ecs_filter_init` fails, the observer is
finalized and 0 is returned; otherwise the entity is returned. -/
def ecs_observer_init (entity : Nat) (added : Bool)
    (filter_init : FilterInitResult) : ObserverInitOutcome :=
  if added then
    match filter_init with
    | .err => ⟨0, true⟩
    | .ok => ⟨entity, false⟩
  else ⟨entity, false⟩

/-- C7: observer operations signal failure by explicit return values:
`ecs_observer_init` returns 0 when the filter fails to parse (after
finalizing the partially built observer), and `ecs_get_observer_ctx` /
`ecs_get_observer_binding_ctx` return NULL when the entity does not carry
an `EcsObserver` component. -/
theorem C7_observer_error_returns (w : ObserverWorld) (entity observer : Nat) (added : Bool)
    (hadded : added = true) (habsent : w.get_observer observer = none) :
    ecs_observer_init entity added .err = ⟨0, true⟩ ∧
    ecs_get_observer_ctx w observer = none ∧
    ecs_get_observer_binding_ctx w observer = none := by
  refine ⟨?_, ?_, ?_⟩
  · simp [ecs_observer_init, hadded]
  · simp [ecs_get_observer_ctx, habsent]
  · simp [ecs_get_observer_binding_ctx, habsent]

/-- Witness for C7 at a concrete world carrying no observers. -/
theorem C7_observer_error_returns_witness :
    ecs_observer_init 42 true .err = ⟨0, true⟩ ∧
    ecs_get_observer_ctx ⟨fun _ => none⟩ 42 = none ∧
    ecs_get_observer_binding_ctx ⟨fun _ => none⟩ 42 = none :=
  C7_observer_error_returns ⟨fun _ => none⟩ 42 42 true rfl rfl

/-! ### Claim C4: observer dispatch (observer.c, lines 3-123)

`observer_callback` gates on `ecs_filter_match_type` and fills the
iterator arrays with `populate_columns`.  The external collaborators
`ecs_type_from_id`, `ecs_type_match` and `ecs_id_is_wildcard` are carried
as fields of `WorldM`; `ecs_filter_match_type` and concrete instances of
the collaborators are modelled from the spec (they are declared but not
defined in the provided sources). -/

/-- The builtin `EcsThis` entity id.  Only identity comparisons with it
occur in the sources; the numeric value is immaterial. -/
def EcsThis : Nat := 1

/-- Term operators used by the observer code. -/
inductive TermOper where
  | EcsAnd
  | EcsOr
  | EcsNot
  | EcsOptional
deriving DecidableEq, Repr

/-- One filter term: its id, its subject `args[0].entity`, its operator
and its actual index `t->index` (Or-group members share one index). -/
structure Term where
  id : Nat
  subj : Nat
  oper : TermOper
  index : Nat
deriving DecidableEq, Repr

/-- An observer filter: the term list and `term_count_actual`. -/
structure Filter where
  terms : List Term
  term_count_actual : Nat
deriving DecidableEq, Repr

/-- The observer fields read by `observer_callback`. -/
structure ObserverT where
  filter : Filter
  entity : Nat
deriving DecidableEq, Repr

/-- External collaborators of the observer code, not defined in the
provided sources: `ecs_type_from_id` (type handle of an id, `0` = NULL),
`ecs_type_match(type, offset, id)` (`-1` when the id does not occur) and
`ecs_id_is_wildcard`. -/
structure WorldM where
  type_from_id : Nat → Nat
  type_match : List Nat → Nat → Nat → Int
  is_wildcard : Nat → Bool

/-- The table fields read by the observer code: its type (id list) and
`column_count` (number of data-bearing columns). -/
structure TableM where
  type : List Nat
  column_count : Nat
deriving DecidableEq, Repr

/-- `ecs_column_t` as read by `populate_columns`: only `size`. -/
structure ColumnM where
  size : Nat
deriving DecidableEq, Repr

/-- `ecs_data_t` as read by `populate_columns`: the column array. -/
structure DataM where
  columns : List ColumnM
deriving DecidableEq, Repr

/-- `data->columns[index]` for a possibly negative `index`; a negative or
out-of-range index is out of bounds in C (unreachable under the
hypotheses used below), modelled with a zero-size default. -/
def colAt (l : List ColumnM) (i : Int) : ColumnM :=
  if 0 ≤ i then l.getD i.toNat ⟨0⟩ else ⟨0⟩

/-- The three output arrays of `populate_columns` (`ids`, `columns`,
`types`), modelled as total functions updated pointwise. -/
structure PopArrays where
  ids : Nat → Nat
  cols : Nat → Int
  types : Nat → Nat

/-- Pointwise array update (`arr[k] = v`). -/
def setArr {α : Type} (f : Nat → α) (k : Nat) (v : α) : Nat → α :=
  fun j => if j = k then v else f j

/-- The common tail of a `populate_columns` iteration once a This-sourced
term reached the `columns[ti] = index + 1` line: store the column, the
type from `id`, resolve a wildcard id from the table type, store the id,
then zero the column when `index` is not a data column
(`table->column_count <= index`) or the column has size 0. -/
def populate_slot (w : WorldM) (table : TableM) (data : DataM)
    (index : Int) (id : Nat) (ti : Nat) (a : PopArrays) : PopArrays :=
  let cols1 := setArr a.cols ti (index + 1)
  let types1 := setArr a.types ti (w.type_from_id id)
  let id2 := if w.is_wildcard id then table.type.getD index.toNat 0 else id
  let ids1 := setArr a.ids ti id2
  let cols2 :=
    if (table.column_count : Int) ≤ index then setArr cols1 ti 0
    else if (colAt data.columns index).size = 0 then setArr cols1 ti 0
    else cols1
  ⟨ids1, cols2, types1⟩

/-- One iteration of the `populate_columns` loop for term `t` at loop
index `i`: a non-This subject stores the term id with column 0; the
term that triggered the event (`i == term_index`) is resolved from
`event_id` instead of `t->id`; otherwise an id absent from the table
writes a zero column for a Not term and writes nothing for an Or term. -/
def populate_step (w : WorldM) (table : TableM) (data : DataM)
    (event_id term_index i : Nat) (t : Term) (a : PopArrays) : PopArrays :=
  let ti := t.index
  if t.subj ≠ EcsThis then
    ⟨setArr a.ids ti t.id, setArr a.cols ti 0, setArr a.types ti (w.type_from_id t.id)⟩
  else if i = term_index then
    populate_slot w table data (w.type_match table.type 0 event_id) event_id ti a
  else
    let index := w.type_match table.type 0 t.id
    if index = -1 then
      if t.oper = .EcsNot then
        ⟨setArr a.ids ti t.id, setArr a.cols ti 0, setArr a.types ti (w.type_from_id t.id)⟩
      else a
    else populate_slot w table data index t.id ti a

/-- The `populate_columns` loop over the terms, with `i` the loop index. -/
def populate_go (w : WorldM) (table : TableM) (data : DataM)
    (event_id term_index : Nat) : Nat → List Term → PopArrays → PopArrays
  | _, [], a => a
  | i, t :: rest, a =>
      populate_go w table data event_id term_index (i + 1) rest
        (populate_step w table data event_id term_index i t a)

/-- `populate_columns`: zero slot 0 of each array, then run the loop. -/
def populate_columns (w : WorldM) (o : ObserverT) (table : TableM) (data : DataM)
    (event_id term_index : Nat) (a : PopArrays) : PopArrays :=
  populate_go w table data event_id term_index 0 o.filter.terms
    ⟨setArr a.ids 0 0, setArr a.cols 0 0, setArr a.types 0 0⟩

/-- Whether the table type contains an id. -/
def type_has (ty : List Nat) (id : Nat) : Bool := ty.contains id

/-- Whether a This-sourced term's id is in the type; a term with another
subject does not constrain the table's own type. -/
def term_this_sat (t : Term) (ty : List Nat) : Bool :=
  decide (t.subj ≠ EcsThis) || type_has ty t.id

/-- The same for a Not term: the id must be absent. -/
def term_not_sat (t : Term) (ty : List Nat) : Bool :=
  decide (t.subj ≠ EcsThis) || !type_has ty t.id

/-- Modelled from the spec: `ecs_filter_match_type` is declared but not
defined in the provided sources.  Per §4.7, an And term requires its id
in the type, a Not term requires its absence, an Optional term does not
constrain matching, and of a contiguous Or run at least one member must
be present.  `pending = some sat` means we are inside an Or run whose
members so far give `sat`; the run's obligation is discharged when the
run ends. -/
def match_go : List Term → List Nat → Option Bool → Bool
  | [], _, pending => pending.getD true
  | t :: rest, ty, pending =>
      match t.oper with
      | .EcsOr => match_go rest ty (some (pending.getD false || term_this_sat t ty))
      | .EcsAnd => pending.getD true && term_this_sat t ty && match_go rest ty none
      | .EcsNot => pending.getD true && term_not_sat t ty && match_go rest ty none
      | .EcsOptional => pending.getD true && match_go rest ty none

/-- Modelled from the spec: whole-filter matching. -/
def ecs_filter_match_type (f : Filter) (ty : List Nat) : Bool :=
  match_go f.terms ty none

/-- The fields of the user-visible iterator that `observer_callback`
fills before invoking the action. -/
structure UserIterInfo where
  ids : Nat → Nat
  cols : Nat → Int
  types : Nat → Nat
  system : Nat
  term_index : Nat
  column_count : Nat

/-- `observer_callback`: if the table's type satisfies the whole filter,
populate the arrays and invoke the user action with them (`some`),
otherwise do not invoke it (`none`). -/
def observer_callback (w : WorldM) (o : ObserverT) (table : TableM) (data : DataM)
    (event_id term_index : Nat) (a : PopArrays) : Option UserIterInfo :=
  if ecs_filter_match_type o.filter table.type then
    let p := populate_columns w o table data event_id term_index a
    some ⟨p.ids, p.cols, p.types, o.entity, term_index, o.filter.term_count_actual⟩
  else none

/-- Modelled from the spec: `ecs_type_match` returns the index of the
first id of the type equal to the requested id from `offset` on, `-1`
when the id does not occur.  (Pair/wildcard patterns are not exercised by
the theorems below.) -/
def ecs_type_match (ty : List Nat) (offset : Nat) (id : Nat) : Int :=
  match (ty.drop offset).findIdx? (fun x => x = id) with
  | some j => ((offset + j : Nat) : Int)
  | none => -1

/-- Modelled from the spec: the builtin wildcard id `*`; the numeric
value is immaterial, only identity comparisons occur. -/
def EcsWildcard : Nat := 999

/-- Modelled from the spec: an id is a wildcard when it is `*`. -/
def ecs_id_is_wildcard (id : Nat) : Bool := id = EcsWildcard

/-- Concrete world collaborators for the C4 counterexample and witness:
a type handle is the id itself. -/
def cWorld : WorldM := ⟨fun id => id, ecs_type_match, ecs_id_is_wildcard⟩

/-- Or-group filter whose two members share actual index 1. -/
def cexTerms : List Term := [⟨5, EcsThis, .EcsOr, 1⟩, ⟨6, EcsThis, .EcsOr, 1⟩]

/-- Observer over `cexTerms`. -/
def cexObserver : ObserverT := ⟨⟨cexTerms, 2⟩, 77⟩

/-- A table containing both Or members as data columns. -/
def cexTable : TableM := ⟨[5, 6], 2⟩

/-- Both columns have non-zero size. -/
def cexData : DataM := ⟨[⟨4⟩, ⟨4⟩]⟩

/-- All-zero initial arrays. -/
def zeroArr : PopArrays := ⟨fun _ => 0, fun _ => 0, fun _ => 0⟩

/-- C4 counterexample: the event with id 5 triggers term 0 of the Or
group, but the later Or member (declared id 6, same actual index 1) also
matches the table and overwrites the slot, so the column information the
action receives at the triggering term's index is resolved from the later
term's declared id 6, not from the triggering event id 5. -/
theorem C4_trigger_id_counterexample :
    (observer_callback cWorld cexObserver cexTable cexData 5 0 zeroArr).map
      (fun u => u.ids 1) = some 6 ∧
    (observer_callback cWorld cexObserver cexTable cexData 5 0 zeroArr).map
      (fun u => u.types 1) = some 6 ∧
    cWorld.type_from_id 5 = 5 ∧ (6 : Nat) ≠ 5 := by
  refine ⟨by decide, by decide, rfl, by decide⟩

theorem setArr_at {α : Type} (f : Nat → α) (k : Nat) (v : α) : setArr f k v k = v := by
  simp [setArr]

theorem setArr_ne {α : Type} (f : Nat → α) (k : Nat) (v : α) (j : Nat) (h : j ≠ k) :
    setArr f k v j = f j := by
  simp [setArr, h]

/-- The id the triggering term's slot receives, as a function of the
event id alone. -/
def trigger_ids (w : WorldM) (table : TableM) (event_id : Nat) : Nat :=
  if w.is_wildcard event_id then
    table.type.getD (w.type_match table.type 0 event_id).toNat 0
  else event_id

/-- The column the triggering term's slot receives, as a function of the
event id alone. -/
def trigger_cols (w : WorldM) (table : TableM) (data : DataM) (event_id : Nat) : Int :=
  let index := w.type_match table.type 0 event_id
  if (table.column_count : Int) ≤ index then 0
  else if (colAt data.columns index).size = 0 then 0
  else index + 1

theorem populate_slot_at (w : WorldM) (table : TableM) (data : DataM)
    (index : Int) (id : Nat) (ti : Nat) (a : PopArrays) :
    (populate_slot w table data index id ti a).ids ti =
      (if w.is_wildcard id then table.type.getD index.toNat 0 else id) ∧
    (populate_slot w table data index id ti a).cols ti =
      (if (table.column_count : Int) ≤ index then 0
        else if (colAt data.columns index).size = 0 then 0 else index + 1) ∧
    (populate_slot w table data index id ti a).types ti = w.type_from_id id := by
  unfold populate_slot
  refine ⟨by simp [setArr], ?_, by simp [setArr]⟩
  split_ifs <;> simp_all [setArr]

theorem populate_step_trigger (w : WorldM) (table : TableM) (data : DataM)
    (event_id term_index : Nat) (t : Term) (a : PopArrays) (hsubj : t.subj = EcsThis) :
    populate_step w table data event_id term_index term_index t a =
      populate_slot w table data (w.type_match table.type 0 event_id) event_id t.index a := by
  unfold populate_step
  simp [hsubj]

theorem populate_step_other (w : WorldM) (table : TableM) (data : DataM)
    (event_id term_index i : Nat) (t : Term) (a : PopArrays) (ti : Nat)
    (h : t.index ≠ ti) :
    (populate_step w table data event_id term_index i t a).ids ti = a.ids ti ∧
    (populate_step w table data event_id term_index i t a).cols ti = a.cols ti ∧
    (populate_step w table data event_id term_index i t a).types ti = a.types ti := by
  have h' : ti ≠ t.index := Ne.symm h
  unfold populate_step populate_slot
  dsimp only
  refine ⟨?_, ?_, ?_⟩ <;>
    · split_ifs <;> simp [setArr, h']

theorem populate_go_preserve (w : WorldM) (table : TableM) (data : DataM)
    (event_id term_index : Nat) (ts : List Term) :
    ∀ (i : Nat) (a : PopArrays) (ti : Nat), (∀ u ∈ ts, u.index ≠ ti) →
      (populate_go w table data event_id term_index i ts a).ids ti = a.ids ti ∧
      (populate_go w table data event_id term_index i ts a).cols ti = a.cols ti ∧
      (populate_go w table data event_id term_index i ts a).types ti = a.types ti := by
  induction ts with
  | nil => exact fun i a ti _ => ⟨rfl, rfl, rfl⟩
  | cons t rest ih =>
      intro i a ti h
      have ht : t.index ≠ ti := h t (List.mem_cons_self t rest)
      have hrest : ∀ u ∈ rest, u.index ≠ ti := fun u hu => h u (List.mem_cons_of_mem _ hu)
      have hstep := populate_step_other w table data event_id term_index i t a ti ht
      have hrec := ih (i + 1) (populate_step w table data event_id term_index i t a) ti hrest
      rw [populate_go]
      exact ⟨hrec.1.trans hstep.1, hrec.2.1.trans hstep.2.1, hrec.2.2.trans hstep.2.2⟩

theorem populate_go_append (w : WorldM) (table : TableM) (data : DataM)
    (event_id term_index : Nat) (l1 : List Term) :
    ∀ (l2 : List Term) (i : Nat) (a : PopArrays),
      populate_go w table data event_id term_index i (l1 ++ l2) a =
        populate_go w table data event_id term_index (i + l1.length) l2
          (populate_go w table data event_id term_index i l1 a) := by
  induction l1 with
  | nil => intro l2 i a; simp [populate_go]
  | cons x l1' ih =>
      intro l2 i a
      rw [List.cons_append, populate_go, populate_go, ih l2 (i + 1) _]
      have hn : i + (x :: l1').length = i + 1 + l1'.length := by
        rw [List.length_cons]; omega
      rw [hn]

/-- C4 amended: the user action is invoked if and only if the triggering
table's type satisfies the observer's entire filter; and — provided no
later filter term shares the triggering term's actual index (a later
Or-group member present in the same table would, and would overwrite the
slot) — the column information passed to the action for the triggering
term is resolved from the triggering event id rather than the term's
declared id. -/
theorem C4_observer_dispatch (w : WorldM) (o : ObserverT) (table : TableM) (data : DataM)
    (event_id term_index : Nat) (a : PopArrays)
    (tk : Term) (ts1 ts2 : List Term)
    (hterms : o.filter.terms = ts1 ++ tk :: ts2)
    (hidx : ts1.length = term_index)
    (hsubj : tk.subj = EcsThis)
    (hlater : ∀ u ∈ ts2, u.index ≠ tk.index) :
    ((observer_callback w o table data event_id term_index a).isSome = true ↔
      ecs_filter_match_type o.filter table.type = true) ∧
    (∀ u, observer_callback w o table data event_id term_index a = some u →
      u.ids tk.index = trigger_ids w table event_id ∧
      u.cols tk.index = trigger_cols w table data event_id ∧
      u.types tk.index = w.type_from_id event_id) := by
  constructor
  · unfold observer_callback
    split_ifs with hm <;> simp [hm]
  · intro u hu
    unfold observer_callback at hu
    split_ifs at hu with hm
    · simp only [Option.some.injEq] at hu
      subst hu
      show (populate_columns w o table data event_id term_index a).ids tk.index = _ ∧
        (populate_columns w o table data event_id term_index a).cols tk.index = _ ∧
        (populate_columns w o table data event_id term_index a).types tk.index = _
      unfold populate_columns
      rw [hterms, populate_go_append, Nat.zero_add, hidx, populate_go]
      have hpres := populate_go_preserve w table data event_id term_index ts2
        (term_index + 1)
        (populate_step w table data event_id term_index term_index tk
          (populate_go w table data event_id term_index 0 ts1
            ⟨setArr a.ids 0 0, setArr a.cols 0 0, setArr a.types 0 0⟩))
        tk.index hlater
      rw [hpres.1, hpres.2.1, hpres.2.2, populate_step_trigger _ _ _ _ _ _ _ hsubj]
      have hslot := populate_slot_at w table data (w.type_match table.type 0 event_id)
        event_id tk.index
        (populate_go w table data event_id term_index 0 ts1
          ⟨setArr a.ids 0 0, setArr a.cols 0 0, setArr a.types 0 0⟩)
      exact ⟨hslot.1, hslot.2.1, hslot.2.2⟩

/-- A single-term filter for the C4 witness. -/
def wTerm : Term := ⟨5, EcsThis, .EcsAnd, 1⟩

/-- Observer over `[wTerm]`. -/
def wObserver : ObserverT := ⟨⟨[wTerm], 2⟩, 50⟩

/-- A table containing id 5 as a data column. -/
def wTable : TableM := ⟨[5], 1⟩

/-- That one column has non-zero size. -/
def wData : DataM := ⟨[⟨4⟩]⟩

/-- Witness for C4 amended at a one-term filter triggered by event id 5. -/
theorem C4_observer_dispatch_witness :
    (((observer_callback cWorld wObserver wTable wData 5 0 zeroArr).isSome = true ↔
      ecs_filter_match_type wObserver.filter wTable.type = true) ∧
    (∀ u, observer_callback cWorld wObserver wTable wData 5 0 zeroArr = some u →
      u.ids wTerm.index = trigger_ids cWorld wTable 5 ∧
      u.cols wTerm.index = trigger_cols cWorld wTable wData 5 ∧
      u.types wTerm.index = cWorld.type_from_id 5)) :=
  C4_observer_dispatch cWorld wObserver wTable wData 5 0 zeroArr wTerm [] []
    rfl rfl rfl (by simp)

/-! ### Claim C8: the snapshot stream reader

The stream source (appended to `examples/c/23_get_children/src/main.c`)
drives two cursor state machines, a component reader and a table reader,
through pull-style `read(buffer, size)` calls.  Buffer writes are
modelled as a list of elementary output items; `size_t` arithmetic that
can wrap (the table loop subtracts a `-1` return) is done modulo `2^64`.
The C shares one `ecs_blob_header_kind_t` enum for both cursors and the
emitted headers; the two cursors are modelled as separate inductives. -/

/-- The component reader's cursor (`none` = zero-initialized/unset). -/
inductive CompCursor where
  | header
  | id
  | size
  | nameLength
  | name
deriving DecidableEq, Repr

/-- The table reader's cursor (`none` = zero-initialized/unset). -/
inductive TableCursor where
  | header
  | typeSize
  | ttype
  | tsize
  | columnHeader
  | columnSize
  | columnData
deriving DecidableEq, Repr

/-- The segment cursor `stream->reader.cur`. -/
inductive Segment where
  | componentSegment
  | tableSegment
  | footerSegment
deriving DecidableEq, Repr

/-- The emitted blob-header values. -/
inductive BlobKind where
  | ComponentHeader
  | TableHeader
  | TableColumnHeader
deriving DecidableEq, Repr

/-- One elementary buffer write: a 4-byte blob-header write, a 4-byte
`int32_t` write, or a `memcpy` chunk of raw bytes. -/
inductive OutItem where
  | header (k : BlobKind)
  | i32 (v : Int)
  | chunk (bytes : List Nat)
deriving DecidableEq, Repr

/-- An output item tagged with the reader that produced it. -/
inductive SegItem where
  | comp (it : OutItem)
  | table (it : OutItem)
deriving DecidableEq, Repr

/-- Truncation to a signed 32-bit value, as the C `(int32_t)` casts do. -/
def toInt32 (v : Int) : Int := (v + 2 ^ 31) % 2 ^ 32 - 2 ^ 31

/-- `2^64`, the modulus of `size_t` arithmetic. -/
def U64 : Nat := 2 ^ 64

/-- A (possibly negative) `size_t` value as an unsigned 64-bit number. -/
def intToU64 (v : Int) : Nat := (v % (U64 : Int)).toNat

/-- `size_t` addition. -/
def u64add (a b : Nat) : Nat := (a + b) % U64

/-- `size_t` subtraction. -/
def u64sub (a b : Nat) : Nat := (a + U64 - b % U64) % U64

/-- One row of the world's component table as the component reader sees
it: the id column value, the `size` of the data column entry, and the
name column's characters (without the terminating null byte). -/
structure ComponentEntry where
  id : Int
  size : Int
  name : List Nat
deriving DecidableEq, Repr

/-- `ecs_component_reader_t`: cursor, whether the column pointers have
been fetched (`id_column != NULL`), row index and row count, and the
current name with `len`/`written`. -/
structure ComponentReaderState where
  cur : Option CompCursor
  fetched : Bool
  index : Nat
  count : Nat
  name : List Nat
  len : Nat
  written : Nat
deriving DecidableEq, Repr

/-- One column of a snapshot table: element size, element count of its
data vector, and the raw bytes of its data (a memory pointer). -/
structure TColumn where
  size : Nat
  count : Nat
  mem : Nat → Nat

/-- One snapshot table: whether its `columns` pointer is non-NULL
(filtered-out tables have NULL columns and are skipped), its type and
its columns (the entity column at index 0). -/
structure TableData where
  present : Bool
  type : List Int
  columns : List TColumn

/-- The zero-initialized column. -/
def emptyTColumn : TColumn := ⟨0, 0, fun _ => 0⟩

/-- The zero-initialized table. -/
def emptyTableData : TableData := ⟨false, [], []⟩

/-- `ecs_table_reader_t`: cursor, next table index, the captured current
table, and the type/column iteration state. -/
structure TableReaderState where
  cur : Option TableCursor
  table_index : Nat
  table : TableData
  type_index : Nat
  total_columns : Nat
  column_index : Nat
  column : TColumn
  column_size : Nat
  column_written : Nat

/-- The zero-initialized component reader. -/
def initCompReader : ComponentReaderState := ⟨none, false, 0, 0, [], 0, 0⟩

/-- The zero-initialized table reader. -/
def initTableReader : TableReaderState :=
  ⟨none, 0, emptyTableData, 0, 0, 0, emptyTColumn, 0, 0⟩

/-- The stream: the world's component-table rows, the snapshot's tables,
and `stream->reader` = `{cur (segment), component, table}`. -/
structure EcsStream where
  world : List ComponentEntry
  tables : List TableData
  seg : Segment
  component : ComponentReaderState
  table : TableReaderState

/-- `ecs_stream_open`: `reader.cur = EcsComponentSegment`,
`reader.tables = snapshot->tables`, everything else zero-initialized. -/
def ecs_stream_open (world : List ComponentEntry) (tables : List TableData) : EcsStream :=
  ⟨world, tables, .componentSegment, initCompReader, initTableReader⟩

/-- `ecs_component_reader_fetch_component_data`: point the column
pointers at the world's component table (the first table of the world)
and record its row count. -/
def ecs_component_reader_fetch_component_data (s : EcsStream) : EcsStream :=
  { s with component := { s.component with fetched := true, count := s.world.length } }

/-- The world's component row at the reader's index (out-of-range reads
are out of bounds in C; a zero row is the total default). -/
def compEntryAt (s : EcsStream) : ComponentEntry :=
  s.world.getD s.component.index ⟨0, 0, []⟩

/-- `ecs_component_reader_next`: advance the component cursor; fetch the
columns at the first header, capture name and `len = strlen(name) + 1`
after the size field, and when the last row's name completes move the
stream to the table segment.  The unreachable `default: ecs_abort` case
(the cursor is always set by the caller) is the identity here. -/
def ecs_component_reader_next (s : EcsStream) : EcsStream :=
  match s.component.cur with
  | some .header =>
      let s := { s with component := { s.component with cur := some .id } }
      if s.component.fetched = false then
        let s := ecs_component_reader_fetch_component_data s
        { s with component := { s.component with index := 0 } }
      else s
  | some .id => { s with component := { s.component with cur := some .size } }
  | some .size =>
      let nm := (compEntryAt s).name
      { s with component := { s.component with
          cur := some .nameLength, name := nm, len := nm.length + 1 } }
  | some .nameLength =>
      { s with component := { s.component with cur := some .name, written := 0 } }
  | some .name =>
      let s := { s with component := { s.component with
          cur := some .header, index := s.component.index + 1 } }
      if s.component.index = s.component.count then { s with seg := .tableSegment }
      else s
  | none => s

/-- `ecs_component_reader(buffer, size, stream)`: returns the number of
bytes written (`-1` when `0 < size < 4`), the buffer writes and the new
stream.  A name is copied in chunks of at most `size` bytes; the other
cursors write 4 bytes each. -/
def ecs_component_reader (size : Nat) (s : EcsStream) : Int × List OutItem × EcsStream :=
  if size = 0 then (0, [], s)
  else if size < 4 then (-1, [], s)
  else
    let s := if s.component.cur = none then
        { s with component := { s.component with cur := some .header } }
      else s
    match s.component.cur with
    | some .header => (4, [.header .ComponentHeader], ecs_component_reader_next s)
    | some .id => (4, [.i32 (toInt32 (compEntryAt s).id)], ecs_component_reader_next s)
    | some .size => (4, [.i32 (toInt32 (compEntryAt s).size)], ecs_component_reader_next s)
    | some .nameLength =>
        (4, [.i32 (toInt32 (s.component.len : Int))], ecs_component_reader_next s)
    | some .name =>
        let rd := min (s.component.len - s.component.written) size
        let bytes := ((s.component.name ++ [0]).drop s.component.written).take rd
        let s := { s with component :=
          { s.component with written := s.component.written + rd } }
        let s := if s.component.written = s.component.len then
            ecs_component_reader_next s
          else s
        ((rd : Int), [.chunk bytes], s)
    | none => (0, [], s)

/-- The do/while of the table reader's header case: scan the snapshot's
tables from `start` for the first one whose columns are not NULL. -/
def find_present : List TableData → Nat → Option (Nat × TableData)
  | [], _ => none
  | t :: rest, i => if t.present then some (i, t) else find_present rest (i + 1)

/-- `ecs_table_reader_next`: advance the table cursor; at a header find
the next present table and capture its type and column counts; after the
last column of the last table move the stream to the footer segment.
The C loops past the end of the table chunk when no present table
remains (out of bounds, unreachable for well-formed snapshots); that
case and the unreachable `default: ecs_abort` are the identity here. -/
def ecs_table_reader_next (s : EcsStream) : EcsStream :=
  let r := s.table
  match r.cur with
  | some .header =>
      match find_present (s.tables.drop r.table_index) r.table_index with
      | some (i, t) =>
          { s with table := { r with
              cur := some .typeSize, table := t, table_index := i + 1,
              type_index := 0, total_columns := t.type.length + 1,
              column_index := 0 } }
      | none => s
  | some .typeSize => { s with table := { r with cur := some .ttype } }
  | some .ttype =>
      let r := { r with type_index := r.type_index + 1 }
      if r.type_index = r.table.type.length then
        { s with table := { r with cur := some .tsize } }
      else { s with table := r }
  | some .tsize => { s with table := { r with cur := some .columnHeader } }
  | some .columnHeader =>
      let col := r.table.columns.getD r.column_index emptyTColumn
      { s with table := { r with
          cur := some .columnSize, column := col,
          column_size := col.count * col.size } }
  | some .columnSize =>
      { s with table := { r with cur := some .columnData, column_written := 0 } }
  | some .columnData =>
      let r := { r with column_index := r.column_index + 1 }
      if r.column_index = r.total_columns then
        let r := { r with cur := some .header }
        if r.table_index = s.tables.length then
          { s with table := r, seg := .footerSegment }
        else { s with table := r }
      else { s with table := { r with cur := some .columnHeader } }
  | none => s

/-- `ecs_table_reader(buffer, size, stream)`: 4-byte writes for headers,
type size, type ids (low 32 bits of the 64-bit entity), table size and
column size, and chunked copies of the raw column memory. -/
def ecs_table_reader (size : Nat) (s : EcsStream) : Int × List OutItem × EcsStream :=
  if size = 0 then (0, [], s)
  else if size < 4 then (-1, [], s)
  else
    let s := if s.table.cur = none then
        { s with table := { s.table with cur := some .header } }
      else s
    let r := s.table
    match r.cur with
    | some .header => (4, [.header .TableHeader], ecs_table_reader_next s)
    | some .typeSize =>
        (4, [.i32 (r.table.type.length : Int)], ecs_table_reader_next s)
    | some .ttype =>
        (4, [.i32 (toInt32 (r.table.type.getD r.type_index 0))], ecs_table_reader_next s)
    | some .tsize =>
        (4, [.i32 ((r.table.columns.getD 0 emptyTColumn).count : Int)],
          ecs_table_reader_next s)
    | some .columnHeader => (4, [.header .TableColumnHeader], ecs_table_reader_next s)
    | some .columnSize => (4, [.i32 (r.column_size : Int)], ecs_table_reader_next s)
    | some .columnData =>
        let rd := min (r.column_size - r.column_written) size
        let bytes := (List.range rd).map (fun j => r.column.mem (r.column_written + j))
        let s := { s with table := { r with column_written := r.column_written + rd } }
        let s := if s.table.column_written = s.table.column_size then
            ecs_table_reader_next s
          else s
        ((rd : Int), [.chunk bytes], s)
    | none => (0, [], s)

/-- The component-segment loop of `ecs_stream_read`:
`while ((read = ecs_component_reader(...))) { if (read == -1) break;
remaining -= read; total_read += read;
if (reader->cur != EcsComponentSegment) break; }`
Returns `(remaining, total_read, output, stream, last read)`.  `fuel`
bounds the iterations; every continuing iteration consumes at least one
byte, so `fuel = size + 1` never runs out — the fuel-out branch mirrors
the error exit. -/
def comp_loop : Nat → Nat → Nat → EcsStream → Nat × Nat × List OutItem × EcsStream × Int
  | 0, remaining, total, s => (remaining, total, [], s, -1)
  | fuel + 1, remaining, total, s =>
      let (read, out, s₁) := ecs_component_reader remaining s
      if read = 0 then (remaining, total, [], s₁, 0)
      else if read = -1 then (remaining, total, [], s₁, -1)
      else
        let remaining₁ := remaining - read.toNat
        let total₁ := total + read.toNat
        if s₁.seg ≠ .componentSegment then (remaining₁, total₁, out, s₁, read)
        else
          let (r₂, t₂, out₂, s₂, last) := comp_loop fuel remaining₁ total₁ s₁
          (r₂, t₂, out ++ out₂, s₂, last)

/-- The table-segment loop of `ecs_stream_read`:
`while ((read = ecs_table_reader(...))) { remaining -= read;
total_read += read; if (reader->cur != EcsTableSegment) break; }`
There is no `-1` break here: a `-1` return is subtracted as the `size_t`
value `2^64 - 1`, so `remaining`/`total_read` wrap modulo `2^64` exactly
as the C unsigned arithmetic does. -/
def table_loop : Nat → Nat → Nat → EcsStream → Nat × Nat × List OutItem × EcsStream
  | 0, remaining, total, s => (remaining, total, [], s)
  | fuel + 1, remaining, total, s =>
      let (read, out, s₁) := ecs_table_reader remaining s
      if read = 0 then (remaining, total, out, s₁)
      else
        let remaining₁ := u64sub remaining (intToU64 read)
        let total₁ := u64add total (intToU64 read)
        if s₁.seg ≠ .tableSegment then (remaining₁, total₁, out, s₁)
        else
          let (r₂, t₂, out₂, s₂) := table_loop fuel remaining₁ total₁ s₁
          (r₂, t₂, out ++ out₂, s₂)

/-- `ecs_stream_read`: returns `(total bytes read, tagged output, new
stream)`.  Size 0 returns 0 at once (`ecs_assert(size >= 4)` guards the
rest).  While the segment cursor is the component segment the component
loop runs; a `-1` exit returns immediately; `read == 0` with bytes
remaining forces the segment to the table segment; then the table loop
runs whenever the segment cursor is the table segment. -/
def ecs_stream_read (size : Nat) (s : EcsStream) : Nat × List SegItem × EcsStream :=
  if size = 0 then (0, [], s)
  else
    if s.seg = .componentSegment then
      let (remaining, total, outc, s₁, last) := comp_loop (size + 1) size 0 s
      if last = -1 then (total, outc.map .comp, s₁)
      else
        let s₂ := if last = 0 ∧ remaining ≠ 0 then { s₁ with seg := .tableSegment } else s₁
        if s₂.seg = .tableSegment then
          let (_, total₂, outt, s₃) := table_loop (size + 1) remaining total s₂
          (total₂, outc.map .comp ++ outt.map .table, s₃)
        else (total, outc.map .comp, s₂)
    else
      if s.seg = .tableSegment then
        let (_, total₂, outt, s₃) := table_loop (size + 1) size 0 s
        (total₂, outt.map .table, s₃)
      else (0, [], s)

/-- Stream invariant, established by `ecs_stream_open` and preserved by
`ecs_stream_read`: once the segment cursor has left the component
segment, the whole component table has been emitted (columns fetched and
`index = count`); the columns are fetched before any per-row cursor
state; a name being copied satisfies `written < len`; `len` is positive
once computed; and the fetched `count` is the component table's row
count. -/
def StreamWF (s : EcsStream) : Prop :=
  (s.seg ≠ .componentSegment →
    s.component.fetched = true ∧ s.component.index = s.component.count) ∧
  ((s.component.cur = some .id ∨ s.component.cur = some .size ∨
      s.component.cur = some .nameLength ∨ s.component.cur = some .name) →
    s.component.fetched = true) ∧
  (s.component.cur = some .nameLength → 1 ≤ s.component.len) ∧
  (s.component.cur = some .name → s.component.written < s.component.len) ∧
  (s.component.fetched = true → s.component.count = s.world.length)

theorem comp_reader_spec (size : Nat) (s : EcsStream)
    (hwf : StreamWF s) (hseg : s.seg = .componentSegment) :
    StreamWF (ecs_component_reader size s).2.2 ∧
    (ecs_component_reader size s).2.2.world = s.world ∧
    (ecs_component_reader size s).2.2.tables = s.tables ∧
    (ecs_component_reader size s).2.2.table = s.table ∧
    ((ecs_component_reader size s).1 = 0 → size = 0) := by
  obtain ⟨w1, w2, w3, w4, w5⟩ := hwf
  unfold ecs_component_reader
  split_ifs with h0 h4 hnone
  · exact ⟨⟨w1, w2, w3, w4, w5⟩, rfl, rfl, rfl, fun _ => h0⟩
  · exact ⟨⟨w1, w2, w3, w4, w5⟩, rfl, rfl, rfl, fun hh => by simp at hh⟩
  · -- cursor was unset: it is set to the header and the header case runs
    dsimp only
    unfold ecs_component_reader_next ecs_component_reader_fetch_component_data
    dsimp only
    split_ifs with hf
    · refine ⟨⟨fun hne => absurd hseg hne, fun _ => rfl, ?_, ?_, fun _ => rfl⟩,
        rfl, rfl, rfl, fun hh => by simp at hh⟩ <;>
        · intro hcc; simp at hcc
    · refine ⟨⟨fun hne => absurd hseg hne, fun _ => ?_, ?_, ?_, fun hft => w5 hft⟩,
        rfl, rfl, rfl, fun hh => by simp at hh⟩
      · simpa using hf
      · intro hcc; simp at hcc
      · intro hcc; simp at hcc
  · cases hc : s.component.cur with
    | none => exact absurd hc hnone
    | some k =>
        cases k with
        | header =>
            simp only [hc]
            unfold ecs_component_reader_next ecs_component_reader_fetch_component_data
            rw [hc]
            dsimp only
            split_ifs with hf
            · refine ⟨⟨fun hne => absurd hseg hne, fun _ => rfl, ?_, ?_, fun _ => rfl⟩,
                rfl, rfl, rfl, fun hh => by simp at hh⟩ <;>
                · intro hcc; simp at hcc
            · refine ⟨⟨fun hne => absurd hseg hne, fun _ => ?_, ?_, ?_,
                  fun hft => w5 hft⟩,
                rfl, rfl, rfl, fun hh => by simp at hh⟩
              · simpa using hf
              · intro hcc; simp at hcc
              · intro hcc; simp at hcc
        | id =>
            simp only [hc]
            unfold ecs_component_reader_next
            rw [hc]
            dsimp only
            refine ⟨⟨fun hne => absurd hseg hne, fun _ => w2 (Or.inl hc), ?_, ?_,
                fun hft => w5 hft⟩,
              rfl, rfl, rfl, fun hh => by simp at hh⟩ <;>
              · intro hcc; simp at hcc
        | size =>
            simp only [hc]
            unfold ecs_component_reader_next
            rw [hc]
            dsimp only
            refine ⟨⟨fun hne => absurd hseg hne, fun _ => w2 (Or.inr (Or.inl hc)),
                fun _ => Nat.le_add_left 1 _, ?_, fun hft => w5 hft⟩,
              rfl, rfl, rfl, fun hh => by simp at hh⟩
            · intro hcc; simp at hcc
        | nameLength =>
            simp only [hc]
            unfold ecs_component_reader_next
            rw [hc]
            dsimp only
            refine ⟨⟨fun hne => absurd hseg hne,
                fun _ => w2 (Or.inr (Or.inr (Or.inl hc))), ?_,
                fun _ => w3 hc, fun hft => w5 hft⟩,
              rfl, rfl, rfl, fun hh => by simp at hh⟩
            · intro hcc; simp at hcc
        | name =>
            simp only [hc]
            have hwl : s.component.written < s.component.len := w4 hc
            have hrd1 : 1 ≤ min (s.component.len - s.component.written) size := by
              have : 4 ≤ size := by omega
              omega
            split_ifs with hdone
            · unfold ecs_component_reader_next
              dsimp only
              split_ifs with hlast
              · refine ⟨⟨fun _ => ⟨w2 (Or.inr (Or.inr (Or.inr hc))), hlast⟩,
                    ?_, ?_, ?_, fun hft => w5 hft⟩,
                  rfl, rfl, rfl, fun hh => ?_⟩
                · intro hcc; rcases hcc with hcc | hcc | hcc | hcc <;> simp at hcc
                · intro hcc; simp at hcc
                · intro hcc; simp at hcc
                · simp only [Int.natCast_eq_zero] at hh; omega
              · refine ⟨⟨fun hne => absurd hseg hne, ?_, ?_, ?_, fun hft => w5 hft⟩,
                  rfl, rfl, rfl, fun hh => ?_⟩
                · intro hcc; rcases hcc with hcc | hcc | hcc | hcc <;> simp at hcc
                · intro hcc; simp at hcc
                · intro hcc; simp at hcc
                · simp only [Int.natCast_eq_zero] at hh; omega
            · refine ⟨⟨fun hne => absurd hseg hne,
                  fun _ => w2 (Or.inr (Or.inr (Or.inr hc))), ?_, fun _ => ?_,
                  fun hft => w5 hft⟩,
                rfl, rfl, rfl, fun hh => ?_⟩
              · intro hcc; simp at hcc
              · dsimp only
                have hle : min (s.component.len - s.component.written) size ≤
                    s.component.len - s.component.written := Nat.min_le_left _ _
                omega
              · simp only [Int.natCast_eq_zero] at hh; omega

theorem comp_loop_spec (fuel : Nat) :
    ∀ (rem tot : Nat) (s : EcsStream), StreamWF s → s.seg = .componentSegment →
      StreamWF (comp_loop fuel rem tot s).2.2.2.1 ∧
      (comp_loop fuel rem tot s).2.2.2.1.world = s.world ∧
      (comp_loop fuel rem tot s).2.2.2.1.tables = s.tables ∧
      (comp_loop fuel rem tot s).2.2.2.1.table = s.table ∧
      ((comp_loop fuel rem tot s).2.2.2.2 = 0 → (comp_loop fuel rem tot s).1 = 0) := by
  induction fuel with
  | zero =>
      intro rem tot s hwf _
      exact ⟨hwf, rfl, rfl, rfl, fun hh => by simp [comp_loop] at hh⟩
  | succ fuel ih =>
      intro rem tot s hwf hseg
      have hspec := comp_reader_spec rem s hwf hseg
      rcases hE : ecs_component_reader rem s with ⟨read, out, s₁⟩
      rw [hE] at hspec
      dsimp only at hspec
      obtain ⟨hwf₁, hw₁, ht₁, htb₁, hr0⟩ := hspec
      simp only [comp_loop]
      rw [hE]
      dsimp only
      split_ifs with h1 h2 h3
      · exact ⟨hwf₁, hw₁, ht₁, htb₁, fun _ => hr0 h1⟩
      · exact ⟨hwf₁, hw₁, ht₁, htb₁, fun hh => by simp at hh⟩
      · exact ⟨hwf₁, hw₁, ht₁, htb₁, fun hh => absurd hh h1⟩
      · have hseg₁ : s₁.seg = .componentSegment := not_not.mp h3
        have hi := ih (rem - read.toNat) (tot + read.toNat) s₁ hwf₁ hseg₁
        rcases hL : comp_loop fuel (rem - read.toNat) (tot + read.toNat) s₁ with
          ⟨r₂, t₂, o₂, s₂, last⟩
        rw [hL] at hi
        simp only [hL]
        dsimp only at hi ⊢
        exact ⟨hi.1, hi.2.1.trans hw₁, hi.2.2.1.trans ht₁, hi.2.2.2.1.trans htb₁,
          hi.2.2.2.2⟩

theorem table_next_pres (s : EcsStream) :
    (ecs_table_reader_next s).component = s.component ∧
    (ecs_table_reader_next s).world = s.world ∧
    (ecs_table_reader_next s).tables = s.tables ∧
    ((ecs_table_reader_next s).seg = s.seg ∨
      (ecs_table_reader_next s).seg = .footerSegment) := by
  unfold ecs_table_reader_next
  dsimp only
  cases hc : s.table.cur with
  | none => exact ⟨rfl, rfl, rfl, Or.inl rfl⟩
  | some k =>
      cases k with
      | header =>
          cases hfp : find_present (s.tables.drop s.table.table_index)
              s.table.table_index with
          | none => exact ⟨rfl, rfl, rfl, Or.inl rfl⟩
          | some p =>
              obtain ⟨i, t⟩ := p
              exact ⟨rfl, rfl, rfl, Or.inl rfl⟩
      | typeSize => exact ⟨rfl, rfl, rfl, Or.inl rfl⟩
      | ttype =>
          dsimp only
          split_ifs <;> exact ⟨rfl, rfl, rfl, Or.inl rfl⟩
      | tsize => exact ⟨rfl, rfl, rfl, Or.inl rfl⟩
      | columnHeader => exact ⟨rfl, rfl, rfl, Or.inl rfl⟩
      | columnSize => exact ⟨rfl, rfl, rfl, Or.inl rfl⟩
      | columnData =>
          dsimp only
          split_ifs with ha hb
          · exact ⟨rfl, rfl, rfl, Or.inr rfl⟩
          · exact ⟨rfl, rfl, rfl, Or.inl rfl⟩
          · exact ⟨rfl, rfl, rfl, Or.inl rfl⟩

theorem table_reader_pres (size : Nat) (s : EcsStream) :
    (ecs_table_reader size s).2.2.component = s.component ∧
    (ecs_table_reader size s).2.2.world = s.world ∧
    (ecs_table_reader size s).2.2.tables = s.tables ∧
    ((ecs_table_reader size s).2.2.seg = s.seg ∨
      (ecs_table_reader size s).2.2.seg = .footerSegment) := by
  unfold ecs_table_reader
  split_ifs with h0 h4 hnone
  · exact ⟨rfl, rfl, rfl, Or.inl rfl⟩
  · exact ⟨rfl, rfl, rfl, Or.inl rfl⟩
  · dsimp only
    exact ⟨(table_next_pres _).1, (table_next_pres _).2.1, (table_next_pres _).2.2.1,
      (table_next_pres _).2.2.2⟩
  · dsimp only
    cases hc : s.table.cur with
    | none => exact absurd hc hnone
    | some k =>
        cases k with
        | header =>
            exact ⟨(table_next_pres _).1, (table_next_pres _).2.1,
              (table_next_pres _).2.2.1, (table_next_pres _).2.2.2⟩
        | typeSize =>
            exact ⟨(table_next_pres _).1, (table_next_pres _).2.1,
              (table_next_pres _).2.2.1, (table_next_pres _).2.2.2⟩
        | ttype =>
            exact ⟨(table_next_pres _).1, (table_next_pres _).2.1,
              (table_next_pres _).2.2.1, (table_next_pres _).2.2.2⟩
        | tsize =>
            exact ⟨(table_next_pres _).1, (table_next_pres _).2.1,
              (table_next_pres _).2.2.1, (table_next_pres _).2.2.2⟩
        | columnHeader =>
            exact ⟨(table_next_pres _).1, (table_next_pres _).2.1,
              (table_next_pres _).2.2.1, (table_next_pres _).2.2.2⟩
        | columnSize =>
            exact ⟨(table_next_pres _).1, (table_next_pres _).2.1,
              (table_next_pres _).2.2.1, (table_next_pres _).2.2.2⟩
        | columnData =>
            dsimp only
            split_ifs with hdone
            · exact ⟨(table_next_pres _).1, (table_next_pres _).2.1,
                (table_next_pres _).2.2.1, (table_next_pres _).2.2.2⟩
            · exact ⟨rfl, rfl, rfl, Or.inl rfl⟩

theorem table_loop_pres (fuel : Nat) :
    ∀ (rem tot : Nat) (s : EcsStream),
      (table_loop fuel rem tot s).2.2.2.component = s.component ∧
      (table_loop fuel rem tot s).2.2.2.world = s.world ∧
      (table_loop fuel rem tot s).2.2.2.tables = s.tables ∧
      ((table_loop fuel rem tot s).2.2.2.seg = s.seg ∨
        (table_loop fuel rem tot s).2.2.2.seg = .footerSegment) := by
  induction fuel with
  | zero => intro rem tot s; exact ⟨rfl, rfl, rfl, Or.inl rfl⟩
  | succ fuel ih =>
      intro rem tot s
      have hp := table_reader_pres rem s
      rcases hE : ecs_table_reader rem s with ⟨read, out, s₁⟩
      rw [hE] at hp
      dsimp only at hp
      simp only [table_loop]
      rw [hE]
      dsimp only
      split_ifs with h1 h2
      · exact hp
      · exact hp
      · have hi := ih (u64sub rem (intToU64 read)) (u64add tot (intToU64 read)) s₁
        rcases hL : table_loop fuel (u64sub rem (intToU64 read))
            (u64add tot (intToU64 read)) s₁ with ⟨r₂, t₂, o₂, s₂⟩
        rw [hL] at hi
        simp only [hL]
        dsimp only at hi ⊢
        refine ⟨hi.1.trans hp.1, hi.2.1.trans hp.2.1, hi.2.2.1.trans hp.2.2.1, ?_⟩
        rcases hi.2.2.2 with h | h
        · rw [h]; exact hp.2.2.2
        · exact Or.inr h

theorem wf_done (s : EcsStream) (hwf : StreamWF s) (h : s.seg ≠ .componentSegment) :
    s.component.index = s.component.count ∧ s.component.count = s.world.length :=
  ⟨(hwf.1 h).2, hwf.2.2.2.2 (hwf.1 h).1⟩

theorem wf_carry (s₁ s₃ : EcsStream) (hwf : StreamWF s₁)
    (h1 : s₁.seg ≠ .componentSegment) (hc : s₃.component = s₁.component)
    (hw : s₃.world = s₁.world) : StreamWF s₃ := by
  obtain ⟨w1, w2, w3, w4, w5⟩ := hwf
  refine ⟨?_, ?_, ?_, ?_, ?_⟩
  · intro _; rw [hc]; exact w1 h1
  · intro h; rw [hc] at h ⊢; exact w2 h
  · intro h; rw [hc] at h ⊢; exact w3 h
  · intro h; rw [hc] at h ⊢; exact w4 h
  · intro h; rw [hc] at h ⊢; rw [hw]; exact w5 h

/-- C8: a freshly opened stream starts in the component segment (in a
well-formed state); a read of size 0 returns 0, writes nothing and
leaves the stream unchanged; and every read from a well-formed stream
preserves well-formedness, advances only the reader state (the world's
component rows and the snapshot tables are untouched), emits all
component-segment items before all table-segment items, emits no
component item once the stream has left the component segment (and the
segment never returns to it), and the segment leaves the component
segment only with the component reader having consumed the entire
component table (`index = count` = the number of component rows). -/
theorem C8_stream_read_order :
    (∀ (w : List ComponentEntry) (tables : List TableData),
      (ecs_stream_open w tables).seg = .componentSegment ∧
        StreamWF (ecs_stream_open w tables)) ∧
    (∀ s : EcsStream, ecs_stream_read 0 s = (0, [], s)) ∧
    (∀ (s : EcsStream) (size n : Nat) (out : List SegItem) (s' : EcsStream),
      StreamWF s → ecs_stream_read size s = (n, out, s') →
      StreamWF s' ∧ s'.world = s.world ∧ s'.tables = s.tables ∧
      (∃ cs ts : List OutItem, out = cs.map SegItem.comp ++ ts.map SegItem.table) ∧
      (s.seg ≠ .componentSegment → ∃ ts : List OutItem, out = ts.map SegItem.table) ∧
      (s.seg ≠ .componentSegment → s'.seg ≠ .componentSegment) ∧
      (s'.seg ≠ .componentSegment →
        s'.component.index = s'.component.count ∧
        s'.component.count = s'.world.length)) := by
  refine ⟨?_, ?_, ?_⟩
  · intro w tables
    refine ⟨rfl, fun h => absurd rfl h, ?_, ?_, ?_, ?_⟩
    · intro h
      rcases h with h | h | h | h <;> simp [ecs_stream_open, initCompReader] at h
    · intro h; simp [ecs_stream_open, initCompReader] at h
    · intro h; simp [ecs_stream_open, initCompReader] at h
    · intro h; simp [ecs_stream_open, initCompReader] at h
  · intro s
    simp [ecs_stream_read]
  · intro s size n out s' hwf heq
    by_cases h0 : size = 0
    · simp only [ecs_stream_read] at heq
      rw [if_pos h0] at heq
      simp only [Prod.mk.injEq] at heq
      obtain ⟨hn, ho, hs⟩ := heq
      subst hn; subst ho; subst hs
      exact ⟨hwf, rfl, rfl, ⟨[], [], rfl⟩, fun _ => ⟨[], rfl⟩, fun h => h,
        fun h => wf_done s hwf h⟩
    · simp only [ecs_stream_read] at heq
      rw [if_neg h0] at heq
      by_cases hsegc : s.seg = .componentSegment
      · rw [if_pos hsegc] at heq
        have hloop := comp_loop_spec (size + 1) size 0 s hwf hsegc
        rcases hL : comp_loop (size + 1) size 0 s with ⟨rem, tot, outc, s₁, last⟩
        rw [hL] at hloop
        simp only [hL] at heq
        dsimp only at hloop heq
        obtain ⟨hwf₁, hw₁, ht₁, htb₁, hlast0⟩ := hloop
        by_cases hm1 : last = -1
        · rw [if_pos hm1] at heq
          simp only [Prod.mk.injEq] at heq
          obtain ⟨hn, ho, hs⟩ := heq
          subst hn; subst ho; subst hs
          refine ⟨hwf₁, hw₁, ht₁, ⟨outc, [], by simp⟩, fun h => absurd hsegc h,
            fun h => absurd hsegc h, fun h => wf_done _ hwf₁ h⟩
        · rw [if_neg hm1] at heq
          have hcond : ¬(last = 0 ∧ rem ≠ 0) := by
            rintro ⟨hl, hr⟩; exact hr (hlast0 hl)
          rw [if_neg hcond] at heq
          by_cases ht : s₁.seg = .tableSegment
          · rw [if_pos ht] at heq
            have htl := table_loop_pres (size + 1) rem tot s₁
            rcases hT : table_loop (size + 1) rem tot s₁ with ⟨r₃, tot₃, outt, s₃⟩
            rw [hT] at htl
            simp only [hT] at heq
            dsimp only at htl heq
            simp only [Prod.mk.injEq] at heq
            obtain ⟨hn, ho, hs⟩ := heq
            subst hn; subst ho; subst hs
            have hne₁ : s₁.seg ≠ .componentSegment := by rw [ht]; decide
            have hwf₃ : StreamWF s₃ := wf_carry s₁ s₃ hwf₁ hne₁ htl.1 htl.2.1
            have hseg₃ : s₃.seg ≠ .componentSegment := by
              rcases htl.2.2.2 with h | h
              · rw [h]; exact hne₁
              · rw [h]; decide
            exact ⟨hwf₃, htl.2.1.trans hw₁, htl.2.2.1.trans ht₁,
              ⟨outc, outt, rfl⟩, fun h => absurd hsegc h, fun h => absurd hsegc h,
              fun _ => wf_done _ hwf₃ hseg₃⟩
          · rw [if_neg ht] at heq
            simp only [Prod.mk.injEq] at heq
            obtain ⟨hn, ho, hs⟩ := heq
            subst hn; subst ho; subst hs
            exact ⟨hwf₁, hw₁, ht₁, ⟨outc, [], by simp⟩, fun h => absurd hsegc h,
              fun h => absurd hsegc h, fun h => wf_done _ hwf₁ h⟩
      · rw [if_neg hsegc] at heq
        by_cases ht : s.seg = .tableSegment
        · rw [if_pos ht] at heq
          have htl := table_loop_pres (size + 1) size 0 s
          rcases hT : table_loop (size + 1) size 0 s with ⟨r₃, tot₃, outt, s₃⟩
          rw [hT] at htl
          simp only [hT] at heq
          dsimp only at htl heq
          simp only [Prod.mk.injEq] at heq
          obtain ⟨hn, ho, hs⟩ := heq
          subst hn; subst ho; subst hs
          have hwf₃ : StreamWF s₃ := wf_carry s s₃ hwf hsegc htl.1 htl.2.1
          have hseg₃ : s₃.seg ≠ .componentSegment := by
            rcases htl.2.2.2 with h | h
            · rw [h]; exact hsegc
            · rw [h]; decide
          exact ⟨hwf₃, htl.2.1, htl.2.2.1, ⟨[], outt, rfl⟩, fun _ => ⟨outt, rfl⟩,
            fun _ => hseg₃, fun _ => wf_done _ hwf₃ hseg₃⟩
        · rw [if_neg ht] at heq
          simp only [Prod.mk.injEq] at heq
          obtain ⟨hn, ho, hs⟩ := heq
          subst hn; subst ho; subst hs
          exact ⟨hwf, rfl, rfl, ⟨[], [], rfl⟩, fun _ => ⟨[], rfl⟩, fun _ => hsegc,
            fun h => wf_done _ hwf h⟩

/-- A concrete opened stream over one component row for the witness. -/
def demoStream : EcsStream := ecs_stream_open [⟨1, 4, [65]⟩] []

/-- Witness for C8 at the concrete stream `demoStream`: size 0 returns 0
unchanged, and a size-4 read satisfies every conclusion. -/
theorem C8_stream_read_order_witness :
    StreamWF demoStream ∧
    ecs_stream_read 0 demoStream = (0, [], demoStream) ∧
    (∃ n out s', ecs_stream_read 4 demoStream = (n, out, s') ∧
      (StreamWF s' ∧ s'.world = demoStream.world ∧ s'.tables = demoStream.tables ∧
        (∃ cs ts : List OutItem, out = cs.map SegItem.comp ++ ts.map SegItem.table) ∧
        (demoStream.seg ≠ .componentSegment → ∃ ts : List OutItem, out = ts.map SegItem.table) ∧
        (demoStream.seg ≠ .componentSegment → s'.seg ≠ .componentSegment) ∧
        (s'.seg ≠ .componentSegment →
          s'.component.index = s'.component.count ∧
          s'.component.count = s'.world.length))) := by
  have h1 := C8_stream_read_order.1 [⟨1, 4, [65]⟩] []
  refine ⟨h1.2, C8_stream_read_order.2.1 demoStream, ?_⟩
  rcases hE : ecs_stream_read 4 demoStream with ⟨n, out, s'⟩
  exact ⟨n, out, s', rfl, C8_stream_read_order.2.2 demoStream 4 n out s' h1.2 hE⟩
